import Mathlib

/-!
Shallow embedding of the CHIP-8-style virtual processor from `src/main.rs`
(struct `CPU` with a 16-entry 8-bit register file, 4096-byte memory, a
16-entry call stack with stack pointer, and a program counter
`position_in_memory`), together with proofs of the specification claims.

Machine integers are modelled as `Nat` with explicit wrapping (`% 256` for
`u8` arithmetic, `% 65536` for the `u16` truncation of a pushed return
address).  A Rust `panic!` (and likewise a panicking out-of-bounds array
index) is modelled as an `Except.error` carrying both the fault kind and the
processor state at the moment of the panic, so that "no partial write
happened before the fault" is expressible as an equality of states.
-/

namespace ClaytonCpu

/-- The fault kinds of the reference implementation: the two explicit
`panic!` guards of `call`/`ret`, the divide-by-zero guard of `div_xy`, the
implicit panic of an out-of-bounds array index, and the `todo!` arm of the
dispatch loop for an opcode matching no pattern. -/
inductive Fault where
  | stackOverflow
  | stackUnderflow
  | divideByZero
  | indexOutOfBounds
  | unknownOpcode (op : Nat)
  deriving DecidableEq

/-- The processor state: mirrors `struct CPU` of the source.  `registers`
holds `u8` values (kept below 256 by every handler), `memory` holds the
4096 bytes, `stack` the 16 `u16` return-address slots. -/
structure CPU where
  registers : Nat → Nat
  position_in_memory : Nat
  memory : Nat → Nat
  stack : Nat → Nat
  stack_pointer : Nat

/-- `CPU::new()`: all registers, memory and stack slots zero, program
counter and stack pointer zero. -/
def CPU.new : CPU :=
  { registers := fun _ => 0
    position_in_memory := 0
    memory := fun _ => 0
    stack := fun _ => 0
    stack_pointer := 0 }

/-- Write register `i` (functional update of the register file). -/
def setReg (s : CPU) (i v : Nat) : CPU :=
  { s with registers := fun j => if j = i then v else s.registers j }

/-- `load_program`: copy the byte sequence into memory starting at
`start_address` (bytes reduced `% 256` as `u8`). -/
def load_program : CPU → List Nat → Nat → CPU
  | s, [], _ => s
  | s, b :: bs, a =>
      load_program
        { s with memory := fun p => if p = a then b % 256 else s.memory p }
        bs (a + 1)

/-- `read_opcode`: big-endian 16-bit word from the two bytes at the program
counter (`op_byte1 << 8 | op_byte2`). -/
def read_opcode (s : CPU) : Nat :=
  s.memory s.position_in_memory * 256 + s.memory (s.position_in_memory + 1)

/-- `add_xy` (opcode 0x8xy4): `overflowing_add` on `u8`, result written to
`reg[x]` first, then the overflow flag to `reg[0xF]`. -/
def add_xy (s : CPU) (x y : Nat) : CPU :=
  let arg1 := s.registers x
  let arg2 := s.registers y
  let s1 := setReg s x ((arg1 + arg2) % 256)
  if 256 ≤ arg1 + arg2 then setReg s1 15 1 else setReg s1 15 0

/-- `sub_xy` (opcode 0x8xy5): `overflowing_sub` on `u8`; the flag
convention is inverted (`reg[0xF] = 0` on borrow, `1` otherwise).  For
`arg2 < 256` the wrapped value `(arg1 + 256 - arg2) % 256` coincides with
two's-complement `u8` subtraction. -/
def sub_xy (s : CPU) (x y : Nat) : CPU :=
  let arg1 := s.registers x
  let arg2 := s.registers y
  let s1 := setReg s x ((arg1 + 256 - arg2) % 256)
  if arg1 < arg2 then setReg s1 15 0 else setReg s1 15 1

/-- `mul_xy` (opcode 0x8xyC): `overflowing_mul` on `u8`, overflow flag to
`reg[0xF]`. -/
def mul_xy (s : CPU) (x y : Nat) : CPU :=
  let arg1 := s.registers x
  let arg2 := s.registers y
  let s1 := setReg s x ((arg1 * arg2) % 256)
  if 256 ≤ arg1 * arg2 then setReg s1 15 1 else setReg s1 15 0

/-- `div_xy` (opcode 0x8xyD): guard `arg2 == 0` panics before any write;
otherwise the remainder is written to `reg[0xF]` first, then the quotient
to `reg[x]`. -/
def div_xy (s : CPU) (x y : Nat) : Except (Fault × CPU) CPU :=
  let arg1 := s.registers x
  let arg2 := s.registers y
  if arg2 = 0 then .error (.divideByZero, s)
  else .ok (setReg (setReg s 15 (arg1 % arg2)) x (arg1 / arg2))

/-- `and_xy` (opcode 0x8xy2). -/
def and_xy (s : CPU) (x y : Nat) : CPU :=
  setReg s x (s.registers x &&& s.registers y)

/-- `or_xy` (opcode 0x8xy1). -/
def or_xy (s : CPU) (x y : Nat) : CPU :=
  setReg s x (s.registers x ||| s.registers y)

/-- `xor_xy` (opcode 0x8xy3). -/
def xor_xy (s : CPU) (x y : Nat) : CPU :=
  setReg s x (s.registers x ^^^ s.registers y)

/-- `jmp` (opcode 0x1nnn): `position_in_memory := addr`. -/
def jmp (s : CPU) (addr : Nat) : CPU :=
  { s with position_in_memory := addr }

/-- `call` (opcode 0x2nnn): the source's guard is `sp > stack.len()`
(i.e. `16 < sp`), a non-strict capacity check; at `sp = 16` the guard does
not fire and the write `stack[sp]` panics with an index-out-of-bounds
fault instead.  On success the current program counter is pushed truncated
to `u16`, the stack pointer incremented, and control transfers to `addr`. -/
def call (s : CPU) (addr : Nat) : Except (Fault × CPU) CPU :=
  let sp := s.stack_pointer
  if 16 < sp then .error (.stackOverflow, s)
  else if 16 ≤ sp then .error (.indexOutOfBounds, s)
  else .ok
    { s with
      stack := fun j => if j = sp then s.position_in_memory % 65536 else s.stack j
      stack_pointer := sp + 1
      position_in_memory := addr }

/-- `ret` (opcode 0x00EE): underflow guard at `sp = 0`; otherwise the
stack pointer is decremented and the program counter set to the popped
address.  The read `stack[sp - 1]` is bounds-checked (it can only be out of
bounds for unreachable states with `sp > 16`); the decrement has already
happened at that point. -/
def ret (s : CPU) : Except (Fault × CPU) CPU :=
  if s.stack_pointer = 0 then .error (.stackUnderflow, s)
  else
    let sp := s.stack_pointer - 1
    if 16 ≤ sp then .error (.indexOutOfBounds, { s with stack_pointer := sp })
    else .ok { s with stack_pointer := sp, position_in_memory := s.stack sp }

/-- `ld` (opcode 0x6xkk): `reg[x] := kk`. -/
def ld (s : CPU) (x kk : Nat) : CPU :=
  setReg s x kk

/-- `se` (opcode 0x3xkk): skip one instruction width if `reg[x] == kk`. -/
def se (s : CPU) (x kk : Nat) : CPU :=
  if s.registers x = kk then
    { s with position_in_memory := s.position_in_memory + 2 }
  else s

/-- `sne` (opcode 0x4xkk): skip one instruction width if `reg[x] != kk`. -/
def sne (s : CPU) (x kk : Nat) : CPU :=
  if s.registers x = kk then s
  else { s with position_in_memory := s.position_in_memory + 2 }

/-- Outcome of one iteration of the `run` loop: normal termination on the
halt sentinel, a successor state, a fault (with the state at the moment of
the panic), or suspension on the key-read instruction 0xF00A. -/
inductive StepResult where
  | halt (s : CPU)
  | next (s : CPU)
  | fault (f : Fault) (s : CPU)
  | needsKey (s : CPU)

/-- Lift a fallible handler result into a `StepResult`. -/
def liftE : Except (Fault × CPU) CPU → StepResult
  | .ok s => .next s
  | .error (f, s) => .fault f s

/-- Decompose the fetched opcode into `(c, x, y, d, nnn, kk)` and dispatch
exactly as the source's `match`, starting from the state `t` whose program
counter has already been advanced past the opcode. -/
def execOp (t : CPU) (opcode : Nat) : StepResult :=
  if opcode / 4096 % 16 = 0 ∧ opcode / 256 % 16 = 0 ∧ opcode / 16 % 16 = 0 ∧
      opcode % 16 = 0 then .halt t
  else if opcode / 4096 % 16 = 0 ∧ opcode / 256 % 16 = 0 ∧
      opcode / 16 % 16 = 14 ∧ opcode % 16 = 14 then liftE (ret t)
  else if opcode / 4096 % 16 = 1 then .next (jmp t (opcode % 4096))
  else if opcode / 4096 % 16 = 2 then liftE (call t (opcode % 4096))
  else if opcode / 4096 % 16 = 3 then
    .next (se t (opcode / 256 % 16) (opcode % 256))
  else if opcode / 4096 % 16 = 4 then
    .next (sne t (opcode / 256 % 16) (opcode % 256))
  else if opcode / 4096 % 16 = 6 then
    .next (ld t (opcode / 256 % 16) (opcode % 256))
  else if opcode / 4096 % 16 = 8 ∧ opcode % 16 = 4 then
    .next (add_xy t (opcode / 256 % 16) (opcode / 16 % 16))
  else if opcode / 4096 % 16 = 8 ∧ opcode % 16 = 5 then
    .next (sub_xy t (opcode / 256 % 16) (opcode / 16 % 16))
  else if opcode / 4096 % 16 = 8 ∧ opcode % 16 = 2 then
    .next (and_xy t (opcode / 256 % 16) (opcode / 16 % 16))
  else if opcode / 4096 % 16 = 8 ∧ opcode % 16 = 1 then
    .next (or_xy t (opcode / 256 % 16) (opcode / 16 % 16))
  else if opcode / 4096 % 16 = 8 ∧ opcode % 16 = 3 then
    .next (xor_xy t (opcode / 256 % 16) (opcode / 16 % 16))
  else if opcode / 4096 % 16 = 8 ∧ opcode % 16 = 12 then
    .next (mul_xy t (opcode / 256 % 16) (opcode / 16 % 16))
  else if opcode / 4096 % 16 = 8 ∧ opcode % 16 = 13 then
    liftE (div_xy t (opcode / 256 % 16) (opcode / 16 % 16))
  else if opcode / 4096 % 16 = 15 ∧ opcode / 256 % 16 = 0 ∧
      opcode / 16 % 16 = 0 ∧ opcode % 16 = 10 then .needsKey t
  else .fault (.unknownOpcode opcode) t

/-- One iteration of `run`: fetch (bounds-checked as in Rust), advance the
program counter by 2, then decode and dispatch. -/
def step (s : CPU) : StepResult :=
  if 4096 ≤ s.position_in_memory + 1 then .fault .indexOutOfBounds s
  else
    execOp { s with position_in_memory := s.position_in_memory + 2 }
      (read_opcode s)

/-- Outcome of a bounded run of the dispatch loop. -/
inductive RunResult where
  | halted (s : CPU)
  | fault (f : Fault) (s : CPU)
  | needsKey (s : CPU)
  | outOfFuel (s : CPU)

/-- `run` with explicit fuel: iterate `step` until halt, fault, key-read
suspension, or fuel exhaustion. -/
def run : Nat → CPU → RunResult
  | 0, s => .outOfFuel s
  | n + 1, s =>
    match step s with
    | .halt s' => .halted s'
    | .next s' => run n s'
    | .fault f s' => .fault f s'
    | .needsKey s' => .needsKey s'

/-- Registers 0 and 1 of a normally halted run, `none` otherwise. -/
def haltedRegs01 : RunResult → Option (Nat × Nat)
  | .halted s => some (s.registers 0, s.registers 1)
  | _ => none

/-- The fault kind of a faulted run, `none` otherwise. -/
def runFaultOf : RunResult → Option Fault
  | .fault f _ => some f
  | _ => none

/-- The program counter of the state a step carries, `none` on fault. -/
def stepPc : StepResult → Option Nat
  | .halt s => some s.position_in_memory
  | .next s => some s.position_in_memory
  | .needsKey s => some s.position_in_memory
  | .fault _ _ => none

/-- The demonstration byte sequence of the spec's first scenario. -/
def demo_program : List Nat :=
  [0x60, 0x05, 0x61, 0x0A, 0x80, 0x15, 0x80, 0x14, 0x80, 0x12, 0x00, 0x00]

/-- Seventeen nested `CALL` instructions: the instruction at address `2k`
calls address `2k + 2`. -/
def nested_calls : List Nat :=
  [0x20, 2, 0x20, 4, 0x20, 6, 0x20, 8, 0x20, 10, 0x20, 12, 0x20, 14,
   0x20, 16, 0x20, 18, 0x20, 20, 0x20, 22, 0x20, 24, 0x20, 26, 0x20, 28,
   0x20, 30, 0x20, 32, 0x20, 34]

/-- Evenness invariant: the program counter and every live stack entry
are even. -/
def EvenState (s : CPU) : Prop :=
  s.position_in_memory % 2 = 0 ∧ ∀ i, i < s.stack_pointer → s.stack i % 2 = 0

/-- The evenness invariant holds of the state a step result carries (a
fault terminates the run, so no constraint is imposed there). -/
def EvenResult : StepResult → Prop
  | .halt s => EvenState s
  | .next s => EvenState s
  | .needsKey s => EvenState s
  | .fault _ _ => True

/-- Concrete state used by several witnesses: `reg[0] = 5`, `reg[1] = 10`. -/
def wState : CPU := setReg (setReg CPU.new 0 5) 1 10

/-- Concrete state with a full call stack (`stack_pointer = 16`). -/
def fullState : CPU := { CPU.new with stack_pointer := 16 }

/-- Concrete state used by the C10 witness: `reg[0xF] = 7`, `reg[1] = 2`. -/
def divState : CPU := setReg (setReg CPU.new 15 7) 1 2

end ClaytonCpu

namespace ClaytonCpu

/-- Reading the register file after a write. -/
@[simp] theorem setReg_get (s : CPU) (i v j : Nat) :
    (setReg s i v).registers j = if j = i then v else s.registers j :=
  rfl

/-- Register writes do not touch the program counter, the stack or the
stack pointer, so they preserve the evenness invariant. -/
theorem evenState_setReg (s : CPU) (i v : Nat) :
    EvenState (setReg s i v) ↔ EvenState s :=
  Iff.rfl

/-- `add_xy` preserves the evenness invariant. -/
theorem evenState_add_xy (s : CPU) (x y : Nat) :
    EvenState (add_xy s x y) ↔ EvenState s := by
  simp only [add_xy]
  split_ifs <;> exact Iff.rfl

/-- `sub_xy` preserves the evenness invariant. -/
theorem evenState_sub_xy (s : CPU) (x y : Nat) :
    EvenState (sub_xy s x y) ↔ EvenState s := by
  simp only [sub_xy]
  split_ifs <;> exact Iff.rfl

/-- `mul_xy` preserves the evenness invariant. -/
theorem evenState_mul_xy (s : CPU) (x y : Nat) :
    EvenState (mul_xy s x y) ↔ EvenState s := by
  simp only [mul_xy]
  split_ifs <;> exact Iff.rfl

/-- Introduction rule for `EvenState` on an explicit state, keeping the
component goals free of structure projections. -/
theorem evenState_mk (r : Nat → Nat) (pc : Nat) (m st : Nat → Nat) (sp : Nat)
    (h1 : pc % 2 = 0) (h2 : ∀ i, i < sp → st i % 2 = 0) :
    EvenState ⟨r, pc, m, st, sp⟩ :=
  ⟨h1, h2⟩

/-- Dispatch preserves the evenness invariant whenever the opcode, if it
is a JMP (`c = 1`) or CALL (`c = 2`), has an even 12-bit target. -/
theorem execOp_even (t : CPU) (opcode : Nat) (h : EvenState t)
    (ht : (opcode / 4096 % 16 = 1 ∨ opcode / 4096 % 16 = 2) →
      opcode % 4096 % 2 = 0) :
    EvenResult (execOp t opcode) := by
  obtain ⟨hpc, hstk⟩ := h
  unfold execOp
  by_cases h1 : opcode / 4096 % 16 = 0 ∧ opcode / 256 % 16 = 0 ∧
      opcode / 16 % 16 = 0 ∧ opcode % 16 = 0
  · rw [if_pos h1]
    exact ⟨hpc, hstk⟩
  rw [if_neg h1]
  by_cases h2 : opcode / 4096 % 16 = 0 ∧ opcode / 256 % 16 = 0 ∧
      opcode / 16 % 16 = 14 ∧ opcode % 16 = 14
  · rw [if_pos h2]
    simp only [ret]
    split_ifs with hz hoob
    · trivial
    · trivial
    · exact evenState_mk _ _ _ _ _ (hstk _ (by omega)) fun i hi => hstk i (by omega)
  rw [if_neg h2]
  by_cases h3 : opcode / 4096 % 16 = 1
  · rw [if_pos h3]
    simp only [jmp]
    exact evenState_mk _ _ _ _ _ (ht (Or.inl h3)) hstk
  rw [if_neg h3]
  by_cases h4 : opcode / 4096 % 16 = 2
  · rw [if_pos h4]
    simp only [call]
    split_ifs with hov hoob
    · trivial
    · trivial
    · refine evenState_mk _ _ _ _ _ (ht (Or.inr h4)) fun i hi => ?_
      by_cases hieq : i = t.stack_pointer
      · simp [hieq]
        omega
      · simp [hieq]
        exact hstk i (by omega)
  rw [if_neg h4]
  by_cases h5 : opcode / 4096 % 16 = 3
  · rw [if_pos h5]
    simp only [se]
    split_ifs
    · exact evenState_mk _ _ _ _ _ (by omega) hstk
    · exact ⟨hpc, hstk⟩
  rw [if_neg h5]
  by_cases h6 : opcode / 4096 % 16 = 4
  · rw [if_pos h6]
    simp only [sne]
    split_ifs
    · exact ⟨hpc, hstk⟩
    · exact evenState_mk _ _ _ _ _ (by omega) hstk
  rw [if_neg h6]
  by_cases h7 : opcode / 4096 % 16 = 6
  · rw [if_pos h7]
    exact ⟨hpc, hstk⟩
  rw [if_neg h7]
  by_cases h8 : opcode / 4096 % 16 = 8 ∧ opcode % 16 = 4
  · rw [if_pos h8]
    exact (evenState_add_xy _ _ _).mpr ⟨hpc, hstk⟩
  rw [if_neg h8]
  by_cases h9 : opcode / 4096 % 16 = 8 ∧ opcode % 16 = 5
  · rw [if_pos h9]
    exact (evenState_sub_xy _ _ _).mpr ⟨hpc, hstk⟩
  rw [if_neg h9]
  by_cases h10 : opcode / 4096 % 16 = 8 ∧ opcode % 16 = 2
  · rw [if_pos h10]
    exact ⟨hpc, hstk⟩
  rw [if_neg h10]
  by_cases h11 : opcode / 4096 % 16 = 8 ∧ opcode % 16 = 1
  · rw [if_pos h11]
    exact ⟨hpc, hstk⟩
  rw [if_neg h11]
  by_cases h12 : opcode / 4096 % 16 = 8 ∧ opcode % 16 = 3
  · rw [if_pos h12]
    exact ⟨hpc, hstk⟩
  rw [if_neg h12]
  by_cases h13 : opcode / 4096 % 16 = 8 ∧ opcode % 16 = 12
  · rw [if_pos h13]
    exact (evenState_mul_xy _ _ _).mpr ⟨hpc, hstk⟩
  rw [if_neg h13]
  by_cases h14 : opcode / 4096 % 16 = 8 ∧ opcode % 16 = 13
  · rw [if_pos h14]
    simp only [div_xy]
    split_ifs with hz
    · trivial
    · exact ⟨hpc, hstk⟩
  rw [if_neg h14]
  by_cases h15 : opcode / 4096 % 16 = 15 ∧ opcode / 256 % 16 = 0 ∧
      opcode / 16 % 16 = 0 ∧ opcode % 16 = 10
  · rw [if_pos h15]
    exact ⟨hpc, hstk⟩
  rw [if_neg h15]
  trivial
/-- C1: the claim says a CALL with the stack already at capacity
(`stack_pointer = 16`) raises `StackOverflowFault`.  The code's guard is
the non-strict `sp > stack.len()`, which is false at `sp = 16`; the write
`stack[sp]` then panics with an index-out-of-bounds fault instead, with
the state unchanged.  The dedicated stack-overflow panic is unreachable. -/
theorem call_at_capacity (s : CPU) (addr : Nat) (h : s.stack_pointer = 16) :
    call s addr = Except.error (Fault.indexOutOfBounds, s) := by
  simp [call, h]

/-- Witness for `call_at_capacity` at a concrete full-stack state. -/
theorem call_at_capacity_witness :
    fullState.stack_pointer = 16 ∧
      call fullState 64 = Except.error (Fault.indexOutOfBounds, fullState) :=
  ⟨rfl, call_at_capacity fullState 64 rfl⟩

/-- Starting from an empty stack, the seventeenth nested CALL aborts the
run with an index-out-of-bounds fault, not the stack-overflow fault. -/
theorem seventeenth_nested_call_faults :
    runFaultOf (run 20 (load_program CPU.new nested_calls 0)) =
      some Fault.indexOutOfBounds := by
  decide

/-- C2: from any state with `stack_pointer < 16` (nesting depth at most
16) and a program counter representable as `u16`, CALL succeeds and a
subsequent RET (whatever the intermediate program counter `p` the fetch of
the RET produced) restores the program counter to its value at the time of
the CALL, i.e. the address of the instruction following the CALL, and
restores the stack pointer. -/
theorem call_ret_roundtrip (s : CPU) (addr : Nat)
    (hsp : s.stack_pointer < 16) (hpc : s.position_in_memory < 65536) :
    ∃ s₁, call s addr = Except.ok s₁ ∧
      ∀ p, ∃ s₂, ret { s₁ with position_in_memory := p } = Except.ok s₂ ∧
        s₂.position_in_memory = s.position_in_memory ∧
        s₂.stack_pointer = s.stack_pointer := by
  have h1 : ¬ 16 < s.stack_pointer := by omega
  have h2 : ¬ 16 ≤ s.stack_pointer := by omega
  have hc : call s addr = Except.ok
      { s with
        stack := fun j =>
          if j = s.stack_pointer then s.position_in_memory % 65536 else s.stack j
        stack_pointer := s.stack_pointer + 1
        position_in_memory := addr } := by
    simp [call, h1, h2]
  refine ⟨_, hc, fun p => ?_⟩
  have h3 : ¬ (s.stack_pointer + 1 = 0) := by omega
  have h4 : ¬ 16 ≤ s.stack_pointer + 1 - 1 := by omega
  have hr : ret
      { registers := s.registers
        position_in_memory := p
        memory := s.memory
        stack := fun j =>
          if j = s.stack_pointer then s.position_in_memory % 65536 else s.stack j
        stack_pointer := s.stack_pointer + 1 } = Except.ok
      { registers := s.registers
        position_in_memory := s.position_in_memory
        memory := s.memory
        stack := fun j =>
          if j = s.stack_pointer then s.position_in_memory % 65536 else s.stack j
        stack_pointer := s.stack_pointer } := by
    simp [ret, h3, h4, hsp, Nat.mod_eq_of_lt hpc]
  exact ⟨_, hr, rfl, rfl⟩

/-- Witness for `call_ret_roundtrip` at the freshly constructed state. -/
theorem call_ret_roundtrip_witness :
    (CPU.new.stack_pointer < 16 ∧ CPU.new.position_in_memory < 65536) ∧
      (∃ s₁, call CPU.new 64 = Except.ok s₁ ∧
        ∀ p, ∃ s₂, ret { s₁ with position_in_memory := p } = Except.ok s₂ ∧
          s₂.position_in_memory = CPU.new.position_in_memory ∧
          s₂.stack_pointer = CPU.new.stack_pointer) :=
  ⟨⟨by decide, by decide⟩, call_ret_roundtrip CPU.new 64 (by decide) (by decide)⟩

/-- C3: for `u8` operand values `a = reg[x]` and `b = reg[y]`, SUB writes
the wrapped difference `(a - b) mod 256` to `reg[x]` (read back as such
whenever `x ≠ 0xF`, the flag register) and sets `reg[0xF]` to 1 exactly
when `a ≥ b`, i.e. when no borrow occurred. -/
theorem sub_xy_spec (s : CPU) (x y : Nat)
    (ha : s.registers x < 256) (hb : s.registers y < 256) :
    (sub_xy s x y).registers 15 =
        (if s.registers y ≤ s.registers x then 1 else 0) ∧
    (x ≠ 15 → ((sub_xy s x y).registers x : Int) =
        ((s.registers x : Int) - (s.registers y : Int)) % 256) := by
  constructor
  · simp only [sub_xy]
    split_ifs <;> simp <;> omega
  · intro hx
    have hval : (sub_xy s x y).registers x =
        (s.registers x + 256 - s.registers y) % 256 := by
      simp only [sub_xy]
      split_ifs <;> simp [hx]
    rw [hval]
    omega

/-- Witness for `sub_xy_spec` at `reg[0] = 5`, `reg[1] = 10`. -/
theorem sub_xy_spec_witness :
    (wState.registers 0 < 256 ∧ wState.registers 1 < 256) ∧
      ((sub_xy wState 0 1).registers 15 =
          (if wState.registers 1 ≤ wState.registers 0 then 1 else 0) ∧
        ((0 : Nat) ≠ 15 → ((sub_xy wState 0 1).registers 0 : Int) =
          ((wState.registers 0 : Int) - (wState.registers 1 : Int)) % 256)) :=
  ⟨⟨by decide, by decide⟩, sub_xy_spec wState 0 1 (by decide) (by decide)⟩

/-- C4: for `u8` operand values `a = reg[x]` and `b = reg[y]`, ADD writes
the wrapped sum `(a + b) mod 256` to `reg[x]` (read back as such whenever
`x ≠ 0xF`) and sets `reg[0xF]` to 1 exactly when `a + b > 255`. -/
theorem add_xy_spec (s : CPU) (x y : Nat)
    (ha : s.registers x < 256) (hb : s.registers y < 256) :
    (add_xy s x y).registers 15 =
        (if 255 < s.registers x + s.registers y then 1 else 0) ∧
    (x ≠ 15 → (add_xy s x y).registers x =
        (s.registers x + s.registers y) % 256) := by
  constructor
  · simp only [add_xy]
    split_ifs <;> simp <;> omega
  · intro hx
    simp only [add_xy]
    split_ifs <;> simp [hx]

/-- Witness for `add_xy_spec` at `reg[0] = 5`, `reg[1] = 10`. -/
theorem add_xy_spec_witness :
    (wState.registers 0 < 256 ∧ wState.registers 1 < 256) ∧
      ((add_xy wState 0 1).registers 15 =
          (if 255 < wState.registers 0 + wState.registers 1 then 1 else 0) ∧
        ((0 : Nat) ≠ 15 → (add_xy wState 0 1).registers 0 =
          (wState.registers 0 + wState.registers 1) % 256)) :=
  ⟨⟨by decide, by decide⟩, add_xy_spec wState 0 1 (by decide) (by decide)⟩

/-- C5: when `reg[y] = 0`, DIV faults with `DivideByZeroFault` before any
register write: the error carries the state at the moment of the panic,
which is exactly the input state, so all 16 registers (indeed the entire
processor state) are unchanged. -/
theorem div_xy_zero_fault (s : CPU) (x y : Nat) (h : s.registers y = 0) :
    div_xy s x y = Except.error (Fault.divideByZero, s) := by
  simp [div_xy, h]

/-- Witness for `div_xy_zero_fault` at the freshly constructed state. -/
theorem div_xy_zero_fault_witness :
    CPU.new.registers 1 = 0 ∧
      div_xy CPU.new 0 1 = Except.error (Fault.divideByZero, CPU.new) :=
  ⟨rfl, div_xy_zero_fault CPU.new 0 1 rfl⟩

/-- C6: SE advances the program counter by an extra 2 exactly when
`reg[x] = kk` and SNE exactly when `reg[x] ≠ kk`; both leave the register
file, the memory, the call stack and the stack pointer unchanged. -/
theorem se_sne_spec (s : CPU) (x kk : Nat) :
    (se s x kk).position_in_memory =
        s.position_in_memory + (if s.registers x = kk then 2 else 0) ∧
    (se s x kk).registers = s.registers ∧
    (se s x kk).memory = s.memory ∧
    (se s x kk).stack = s.stack ∧
    (se s x kk).stack_pointer = s.stack_pointer ∧
    (sne s x kk).position_in_memory =
        s.position_in_memory + (if s.registers x = kk then 0 else 2) ∧
    (sne s x kk).registers = s.registers ∧
    (sne s x kk).memory = s.memory ∧
    (sne s x kk).stack = s.stack ∧
    (sne s x kk).stack_pointer = s.stack_pointer := by
  by_cases h : s.registers x = kk <;> simp [se, sne, h]

/-- C7: loading the demonstration byte sequence at address 0 into a fresh
processor and running to the halt sentinel terminates normally with
`reg[0] = 0` and `reg[1] = 10`. -/
theorem demo_run_spec :
    haltedRegs01 (run 10 (load_program CPU.new demo_program 0)) =
      some (0, 10) := by
  decide

/-- C8 counterexample: from a freshly loaded program at even address 0,
a single JMP to the odd address 0x101 reaches a state whose program
counter is odd, refuting "the program counter is always even in every
reachable state". -/
theorem pc_even_cex :
    stepPc (step (load_program CPU.new [0x11, 0x01] 0)) = some 257 ∧
      257 % 2 = 1 := by
  decide

/-- C8 (amended): one step preserves evenness of the program counter and
of all live stack entries, provided the fetched opcode, when it is a JMP
(`c = 1`) or CALL (`c = 2`), has an even 12-bit target `nnn`.  A JMP or
CALL to an odd target makes the program counter odd. -/
theorem step_preserves_even (s : CPU)
    (h : EvenState s)
    (ht : (read_opcode s / 4096 % 16 = 1 ∨ read_opcode s / 4096 % 16 = 2) →
      read_opcode s % 4096 % 2 = 0) :
    EvenResult (step s) := by
  obtain ⟨hpc, hstk⟩ := h
  simp only [step]
  split_ifs with hb
  · trivial
  · exact execOp_even _ _ (evenState_mk _ _ _ _ _ (by omega) hstk) ht

/-- Witness for `step_preserves_even` at a concrete even-aligned state. -/
theorem step_preserves_even_witness :
    (EvenState (load_program CPU.new [0x60, 0x05] 0) ∧
      ((read_opcode (load_program CPU.new [0x60, 0x05] 0) / 4096 % 16 = 1 ∨
        read_opcode (load_program CPU.new [0x60, 0x05] 0) / 4096 % 16 = 2) →
        read_opcode (load_program CPU.new [0x60, 0x05] 0) % 4096 % 2 = 0)) ∧
    EvenResult (step (load_program CPU.new [0x60, 0x05] 0)) :=
  ⟨⟨by unfold EvenState; decide, by decide⟩,
    step_preserves_even _ (by unfold EvenState; decide) (by decide)⟩

/-- C9: when the destination register is the flag register 0xF, the flag
write of ADD, SUB and MUL happens after the result write, so the final
value of `reg[0xF]` is the overflow/no-borrow flag computed from the
operand values read before any write. -/
theorem arith_flag_priority (s : CPU) (y : Nat) :
    (add_xy s 15 y).registers 15 =
        (if 256 ≤ s.registers 15 + s.registers y then 1 else 0) ∧
    (sub_xy s 15 y).registers 15 =
        (if s.registers y ≤ s.registers 15 then 1 else 0) ∧
    (mul_xy s 15 y).registers 15 =
        (if 256 ≤ s.registers 15 * s.registers y then 1 else 0) := by
  refine ⟨?_, ?_, ?_⟩ <;>
    simp only [add_xy, sub_xy, mul_xy] <;> split_ifs <;> simp <;> omega

/-- C10: DIV writes the remainder to `reg[0xF]` before the quotient to
`reg[x]`; hence for `x = 0xF` the final `reg[0xF]` is the quotient of the
original flag-register value, while for `x ≠ 0xF` the quotient lands in
`reg[x]` and the pre-division remainder in `reg[0xF]`, both computed from
the operand values read before any write. -/
theorem div_xy_write_order (s : CPU) (x y : Nat) (hb : s.registers y ≠ 0) :
    ∃ s', div_xy s x y = Except.ok s' ∧
      (x = 15 → s'.registers 15 = s.registers 15 / s.registers y) ∧
      (x ≠ 15 → s'.registers x = s.registers x / s.registers y ∧
                s'.registers 15 = s.registers x % s.registers y) := by
  refine ⟨setReg (setReg s 15 (s.registers x % s.registers y)) x
      (s.registers x / s.registers y), ?_, ?_, ?_⟩
  · simp [div_xy, hb]
  · intro hx
    subst hx
    simp
  · intro hx
    constructor
    · simp
    · simp [Ne.symm hx]

/-- Witness for `div_xy_write_order` at `x = 0xF`, `reg[0xF] = 7`,
`reg[1] = 2`. -/
theorem div_xy_write_order_witness :
    divState.registers 1 ≠ 0 ∧
      (∃ s', div_xy divState 15 1 = Except.ok s' ∧
        (15 = 15 → s'.registers 15 = divState.registers 15 / divState.registers 1) ∧
        ((15 : Nat) ≠ 15 → s'.registers 15 = divState.registers 15 / divState.registers 1 ∧
                  s'.registers 15 = divState.registers 15 % divState.registers 1)) :=
  ⟨by decide, div_xy_write_order divState 15 1 (by decide)⟩

end ClaytonCpu
